import Mathlib

/-!
Verification development for the chapter-map geocoding pipeline
(`scripts/geocode.js` and its revisions).  The JavaScript source is
shallowly embedded: pure helpers become Lean functions on `String`,
`List` and `Int`; the network is an explicit oracle argument; the
in-memory cache is threaded as an association list; thrown exceptions
become `Except String`.
-/

namespace ChapterMap

/-! ## Generic string helpers (embedding of JS primitives) -/

/-- Embedding of `String.prototype.toLowerCase` (char-wise lowering),
written over the char list so that proofs can evaluate it. -/
def strToLower (s : String) : String := ⟨s.data.map Char.toLower⟩

/-- Embedding of `String.prototype.trim`: drop whitespace at both ends. -/
def strTrim (s : String) : String :=
  ⟨((s.data.dropWhile Char.isWhitespace).reverse.dropWhile Char.isWhitespace).reverse⟩

/-- Embedding of `String.prototype.slice(0, n)`. -/
def strTake (n : Nat) (s : String) : String := ⟨s.data.take n⟩

/-- Split a char list at every occurrence of `sep` (single-char
`String.prototype.split`). -/
def splitOnCh (sep : Char) : List Char → List (List Char)
  | [] => [[]]
  | c :: cs =>
    if c = sep then [] :: splitOnCh sep cs
    else
      match splitOnCh sep cs with
      | [] => [[c]]
      | p :: ps => (c :: p) :: ps

/-- Embedding of single-char `String.prototype.split`. -/
def strSplitOn (sep : Char) (s : String) : List String :=
  (splitOnCh sep s.data).map (fun l => ⟨l⟩)

/-- Embedding of `Array.prototype.join(sep)`. -/
def joinSep (sep : String) : List String → String
  | [] => ""
  | [x] => x
  | x :: y :: rest => x ++ sep ++ joinSep sep (y :: rest)

/-- `leadEq n h`: the char list `n` occurs at the front of `h` (exact). -/
def leadEq : List Char → List Char → Bool
  | [], _ => true
  | _ :: _, [] => false
  | a :: as, b :: bs => a == b && leadEq as bs

/-- `occurs n h`: the char list `n` occurs somewhere inside `h`
(embedding of `String.prototype.includes`). -/
def occurs : List Char → List Char → Bool
  | n, [] => n.isEmpty
  | n, c :: t => leadEq n (c :: t) || occurs n t

/-- Case-insensitive variant of `leadEq` (for the `/i` regex flag). -/
def ciLead : List Char → List Char → Bool
  | [], _ => true
  | _ :: _, [] => false
  | a :: as, b :: bs => a.toLower == b.toLower && ciLead as bs

/-- JavaScript's `\w` character class (ASCII letters, digits, underscore). -/
def isWordChar (c : Char) : Bool := c.isAlphanum || c == '_'

/-- A `\b` word boundary holds next to a missing char or a non-word char. -/
def boundaryOk : Option Char → Bool
  | none => true
  | some c => !isWordChar c

/-- Scan of `s.replace(/\bWORD\b/gi, "")`: drop each case-insensitive,
word-bounded occurrence of `w`, tracking the previous char for the left
boundary.  Matches are found left to right and are non-overlapping.  The
`fuel` argument (instantiated with the input length, which each step
consumes at least one char of) only makes the recursion structural. -/
def stripWordAux (w : List Char) : Nat → Option Char → List Char → List Char
  | 0, _, l => l
  | _ + 1, _, [] => []
  | fuel + 1, prev, c :: cs =>
    if !w.isEmpty && boundaryOk prev && ciLead w (c :: cs) &&
        boundaryOk ((c :: cs).drop w.length).head? then
      stripWordAux w fuel ((c :: cs).take w.length).getLast? ((c :: cs).drop w.length)
    else
      c :: stripWordAux w fuel (some c) cs

/-- Embedding of `s.replace(/\bWORD\b/gi, "")`. -/
def stripWord (w : String) (s : String) : String :=
  ⟨stripWordAux w.data s.data.length none s.data⟩

/-- Scan of `s.replace(/\s{2,}/g, " ")`: `inRun` records that the
current position is inside a whitespace run of length at least two whose
single replacement space was already emitted. -/
def collapseWsAux (inRun : Bool) : List Char → List Char
  | [] => []
  | a :: rest =>
    if a.isWhitespace then
      if inRun then collapseWsAux true rest
      else if (match rest with | b :: _ => b.isWhitespace | [] => false) then
        ' ' :: collapseWsAux true rest
      else
        a :: collapseWsAux false rest
    else
      a :: collapseWsAux false rest

/-- Embedding of `s.replace(/\s{2,}/g, " ")`: every maximal run of two
or more whitespace chars becomes a single space; a lone whitespace char
is kept as is. -/
def collapseWs (l : List Char) : List Char := collapseWsAux false l

/-! ## Normalizer (from `scripts/geocode.js` revisions, `part_002`) -/

/-- `normalizeCountryName` from `part_002` (same body as
`normalizeCountry` in the other revisions). -/
def normalizeCountryName (country : String) : String :=
  let c := strToLower (strTrim country)
  if c = "usa" ∨ c = "us" ∨ c = "u.s." ∨ c = "u.s.a." then "United States"
  else if c = "uk" ∨ c = "u.k." then "United Kingdom"
  else strTrim country

/-- `countryToISO2` from `part_002`: ISO2 code for the Open-Meteo
`country=` filter; unknown countries yield the empty string. -/
def countryToISO2 (country : String) : String :=
  let c := strToLower (normalizeCountryName country)
  if c = "united states" then "US"
  else if c = "canada" then "CA"
  else if c = "australia" then "AU"
  else if c = "united kingdom" then "GB"
  else if c = "germany" then "DE"
  else ""

/-- `normalizePlaceName` from `part_002`: trim, strip word-bounded
`County` and `Station` (case-insensitive, trimming after each), then
collapse repeated whitespace. -/
def normalizePlaceName (city : String) : String :=
  let c := strTrim city
  let c := strTrim (stripWord "County" c)
  let c := strTrim (stripWord "Station" c)
  ⟨collapseWs c.data⟩

/-! ## Input rows and CSV parsing (`parseCsv` in `part_002`) -/

/-- One parsed CSV row (the object literal built by `parseCsv`). -/
structure Row where
  ChapterName : String
  City : String
  StateRegion : String
  Country : String
  PresidentName : String
  PresidentCell : String
  VicePresidentName : String
  VicePresidentCell : String
deriving Repr, DecidableEq

/-- `makeCacheKey` from `part_002`: lower-cased normalized city, state
and country, empty components dropped, joined by `|`. -/
def makeCacheKey (row : Row) : String :=
  let city := strToLower (normalizePlaceName row.City)
  let state := strToLower (strTrim row.StateRegion)
  let country := strToLower (normalizeCountryName row.Country)
  joinSep "|" (([city, state, country]).filter (fun s => s ≠ ""))

/-- Line splitting in `parseCsv`: split on newlines, trim, drop blanks.
(`trim` also removes a trailing `\r`, matching the `/\r?\n/` split.) -/
def splitLines (csvText : String) : List String :=
  ((strSplitOn '\n' csvText).map (fun l => strTrim l)).filter (fun l => l ≠ "")

/-- Field extraction for one data line of `parseCsv` (`part_002`):
`parts[idx(col)] || ""`, with absent optional columns mapped to `""`. -/
def parseLine (header : List String) (line : String) : Row :=
  let parts := (strSplitOn ',' line).map (fun p => strTrim p)
  let get := fun (name : String) =>
    match header.findIdx? (fun h => h = name) with
    | some i => parts.getD i ""
    | none => ""
  { ChapterName := get "ChapterName"
    City := get "City"
    StateRegion := get "StateRegion"
    Country := normalizeCountryName (get "Country")
    PresidentName := get "PresidentName"
    PresidentCell := get "PresidentCell"
    VicePresidentName := get "VicePresidentName"
    VicePresidentCell := get "VicePresidentCell" }

/-- `parseCsv` from `part_002`: header row plus data rows; fails when a
required column is absent.  Note: it reads only the four required and
four officer columns — no other column (in particular no
`LatOverride`/`LngOverride`) is consulted. -/
def parseCsv (csvText : String) : Except String (List Row) :=
  match splitLines csvText with
  | [] => .error "chapters.csv is empty"
  | headerLine :: dataLines =>
    let header := (strSplitOn ',' headerLine).map (fun h => strTrim h)
    if (header.findIdx? (fun h => h = "ChapterName")).isNone then
      .error "CSV missing required column: ChapterName"
    else if (header.findIdx? (fun h => h = "City")).isNone then
      .error "CSV missing required column: City"
    else if (header.findIdx? (fun h => h = "StateRegion")).isNone then
      .error "CSV missing required column: StateRegion"
    else if (header.findIdx? (fun h => h = "Country")).isNone then
      .error "CSV missing required column: Country"
    else
      .ok (dataLines.map (parseLine header))

/-! ## Provider model (`openMeteoSearch`, `geocodeNominatim`, `part_002`) -/

/-- One adapted Open-Meteo hit, after the numeric-coordinate filter
(`{lat, lng, country, admin1, name}`). -/
structure Hit where
  lat : Int
  lng : Int
  country : String
  admin1 : String
  name : String
deriving Repr, DecidableEq

/-- Outcome of one Open-Meteo HTTP request: a parsed hit list (malformed
or empty bodies are the empty list), or a non-success HTTP status with
its response body. -/
inductive OMResp where
  | ok (hits : List Hit)
  | httpError (status : Nat) (body : String)
deriving Repr, DecidableEq

/-- Outcome of one Nominatim HTTP request: an optional first-hit
coordinate pair (none for empty or non-numeric responses), or a
non-success HTTP status with its response body. -/
inductive NomResp where
  | ok (r : Option (Int × Int))
  | httpError (status : Nat) (body : String)
deriving Repr, DecidableEq

/-- A network request issued by the engine. -/
inductive Call where
  | openMeteo (q iso2 : String)
  | nominatim (q : String)
deriving Repr, DecidableEq

/-- What `geocodeWithFallback` returns on success. -/
structure GeoResult where
  lat : Int
  lng : Int
  source : String
deriving Repr, DecidableEq

deriving instance DecidableEq for Except

/-- An Open-Meteo oracle: response for a given query and country filter. -/
def OMOracle := String → String → OMResp

/-- A Nominatim oracle: response for a given query. -/
def NomOracle := String → NomResp

/-- The best-match selection of `geocodeWithFallback` (`part_002`,
lines 212-224): prefer exact country + admin1 match (admin1 checked only
when a state is expected), else any exact country match, else the first
hit. -/
def pickBest002 (expectedCountry expectedState : String) (hits : List Hit) : Option Hit :=
  match hits.find? (fun h =>
      strToLower h.country == expectedCountry &&
      (expectedState == "" || strToLower h.admin1 == expectedState)) with
  | some h => some h
  | none =>
    match hits.find? (fun h => strToLower h.country == expectedCountry) with
    | some h => some h
    | none => hits.head?

/-- The match predicate of `geocodeOpenMeteo` in `part_001`
(lines 185-196): if a state is expected, require country and admin1 to
match exactly (case-insensitive); otherwise require only the country. -/
def findMatch001 (expectedCountry expectedState : String) (results : List Hit) : Option Hit :=
  results.find? (fun r =>
    let rc := strToLower r.country
    let ra := strToLower r.admin1
    let countryOk := expectedCountry == "" || rc == expectedCountry
    let stateOk := expectedState == "" || ra == expectedState
    if expectedState == "" then countryOk else countryOk && stateOk)

/-- The candidate query strings of `geocodeWithFallback` (`part_002`,
lines 199-203): comma-joined non-empty components, most specific first,
then the bare city, with empty strings filtered out. -/
def candidates002 (city state countryName : String) : List String :=
  ([joinSep ", " (([city, state, countryName]).filter (fun s => s ≠ "")),
    joinSep ", " (([city, countryName]).filter (fun s => s ≠ "")),
    city]).filter (fun s => s ≠ "")

/-- The flattened (query, country-filter) plan of the Open-Meteo loop in
`geocodeWithFallback`: each candidate first with the ISO2 filter (when
known), then without. -/
def queryPlan (row : Row) : List (String × String) :=
  let city := normalizePlaceName row.City
  let state := strTrim row.StateRegion
  let countryName := normalizeCountryName row.Country
  let iso2 := countryToISO2 countryName
  (candidates002 city state countryName).flatMap (fun q =>
    if iso2 = "" then [(q, "")] else [(q, iso2), (q, "")])

/-- The Open-Meteo loop of `geocodeWithFallback`: issue each planned
query in order; a non-success status raises the `Open-Meteo error …`
exception; the first non-empty hit list is fed to the selector and the
loop returns; empty hit lists fall through to the next query.  Also
returns the list of network calls issued. -/
def runOM (omO : OMOracle) (expectedCountry expectedState : String) :
    List (String × String) → List Call × Except String (Option GeoResult)
  | [] => ([], .ok none)
  | (q, iso) :: rest =>
    match omO q iso with
    | .httpError status body =>
      ([.openMeteo q iso],
       .error ("Open-Meteo error " ++ toString status ++ ": " ++ strTake 200 body))
    | .ok hits =>
      if hits.isEmpty then
        (.openMeteo q iso :: (runOM omO expectedCountry expectedState rest).1,
         (runOM omO expectedCountry expectedState rest).2)
      else
        ([.openMeteo q iso],
         .ok ((pickBest002 expectedCountry expectedState hits).map
              (fun h => { lat := h.lat, lng := h.lng, source := "open-meteo" })))

/-- The Nominatim fallback loop of `geocodeWithFallback`: issue each
fallback query in order; a non-success status raises the
`Nominatim error …` exception; the first parsed coordinate pair is
returned with source `nominatim`. -/
def runNom (nomO : NomOracle) : List String → List Call × Except String (Option GeoResult)
  | [] => ([], .ok none)
  | q :: rest =>
    match nomO q with
    | .httpError status body =>
      ([.nominatim q],
       .error ("Nominatim error " ++ toString status ++ ": " ++ strTake 200 body))
    | .ok none =>
      (.nominatim q :: (runNom nomO rest).1, (runNom nomO rest).2)
    | .ok (some (la, ln)) =>
      ([.nominatim q], .ok (some { lat := la, lng := ln, source := "nominatim" }))

/-- `geocodeWithFallback` from `part_002`: normalize the row, bail out
with no result when city or country is blank, run the Open-Meteo plan,
and only when every Open-Meteo query returned zero hits fall back to
Nominatim with the two comma-joined queries. -/
def geocodeWithFallback (omO : OMOracle) (nomO : NomOracle) (row : Row) :
    List Call × Except String (Option GeoResult) :=
  let city := normalizePlaceName row.City
  let state := strTrim row.StateRegion
  let countryName := normalizeCountryName row.Country
  if city = "" ∨ countryName = "" then ([], .ok none)
  else
    let expectedState := strToLower (strTrim row.StateRegion)
    let expectedCountry := strToLower (strTrim row.Country)
    let p := runOM omO expectedCountry expectedState (queryPlan row)
    match p.2 with
    | .ok none =>
      let fallbackQueries :=
        [joinSep ", " (([city, state, countryName]).filter (fun s => s ≠ "")),
         joinSep ", " (([city, countryName]).filter (fun s => s ≠ ""))]
      (p.1 ++ (runNom nomO fallbackQueries).1, (runNom nomO fallbackQueries).2)
    | r => (p.1, r)

/-! ## Batch pipeline (`main` in `part_002`) -/

/-- The in-memory cache: an association list read first-match, mirroring
the JSON object loaded from `geocode-cache.json`. -/
abbrev Cache := List (String × (Int × Int))

/-- `cache[key]` lookup (first matching entry). -/
def cacheGet : Cache → String → Option (Int × Int)
  | [], _ => none
  | (k, v) :: rest, key => if k = key then some v else cacheGet rest key

/-- One output record of `chapters.json`. -/
structure OutRec where
  id : Nat
  chapterName : String
  city : String
  stateRegion : String
  country : String
  presidentName : String
  presidentCell : String
  vicePresidentName : String
  vicePresidentCell : String
  lat : Option Int
  lng : Option Int
  geocodeNote : String
deriving Repr, DecidableEq

/-- The `baseOut` object built for row `i` (0-based) in `main`
(`part_002`), with null coordinates and an empty note. -/
def baseOut (i : Nat) (row : Row) : OutRec :=
  { id := i + 1
    chapterName := row.ChapterName
    city := row.City
    stateRegion := row.StateRegion
    country := row.Country
    presidentName := row.PresidentName
    presidentCell := row.PresidentCell
    vicePresidentName := row.VicePresidentName
    vicePresidentCell := row.VicePresidentCell
    lat := none
    lng := none
    geocodeNote := "" }

/-- One iteration of the `main` loop in `part_002` for row `i`:
empty key → `missing location data`; cached key → `cache`; otherwise run
`geocodeWithFallback`, writing the cache on success and converting a
thrown error into an `error: …` note.  Returns the output record, the
updated cache and the network calls issued. -/
def processRow (omO : OMOracle) (nomO : NomOracle) (cache : Cache) (i : Nat) (row : Row) :
    OutRec × Cache × List Call :=
  let key := makeCacheKey row
  if key = "" then
    ({ baseOut i row with geocodeNote := "missing location data" }, cache, [])
  else
    match cacheGet cache key with
    | some (la, ln) =>
      ({ baseOut i row with lat := some la, lng := some ln, geocodeNote := "cache" },
       cache, [])
    | none =>
      match (geocodeWithFallback omO nomO row).2 with
      | .ok none =>
        ({ baseOut i row with geocodeNote := "not found" }, cache,
         (geocodeWithFallback omO nomO row).1)
      | .ok (some r) =>
        ({ baseOut i row with lat := some r.lat, lng := some r.lng, geocodeNote := r.source },
         (key, (r.lat, r.lng)) :: cache, (geocodeWithFallback omO nomO row).1)
      | .error msg =>
        ({ baseOut i row with geocodeNote := "error: " ++ msg }, cache,
         (geocodeWithFallback omO nomO row).1)

/-- The whole `main` loop of `part_002` from row index `i`: processes
every row in order, threading the cache, and collects the outputs, the
final cache and every network call issued. -/
def runPipeline (omO : OMOracle) (nomO : NomOracle) :
    List Row → Nat → Cache → List OutRec × Cache × List Call
  | [], _, cache => ([], cache, [])
  | row :: rest, i, cache =>
    let p := processRow omO nomO cache i row
    let q := runPipeline omO nomO rest (i + 1) p.2.1
    (p.1 :: q.1, q.2.1, p.2.2 ++ q.2.2)

/-! ## Spec-side definitions (for stating claims only) -/

/-- Modelled from the spec (Match Selector, §4.4): the "loose match"
relation between a hit's region and the expected region — case-
insensitive substring containment in either direction.  This stage is
described in the spec but does not exist in any revision of the code. -/
def specLooseRegionMatch (a b : String) : Bool :=
  occurs (strToLower a).data (strToLower b).data || occurs (strToLower b).data (strToLower a).data

/-! ## Concrete fixtures used by counterexamples and witnesses -/

/-- A row for Paris with no state. -/
def rowP : Row := ⟨"Alpha", "Paris", "", "France", "", "", "", ""⟩

/-- An Open-Meteo oracle that always answers with zero hits. -/
def omEmpty : OMOracle := fun _ _ => .ok []

/-- A Nominatim oracle that always answers with no result. -/
def nomEmpty : NomOracle := fun _ => .ok none

/-- A single Open-Meteo hit for Paris. -/
def hitP : Hit := ⟨48, 2, "France", "Ile-de-France", "Paris"⟩

/-- An Open-Meteo oracle that always answers with the Paris hit. -/
def omHit : OMOracle := fun _ _ => .ok [hitP]

/-- An Open-Meteo oracle that always fails with HTTP 500. -/
def omErr : OMOracle := fun _ _ => .httpError 500 "Server exploded"

/-- A wrong-region hit: right country, region North Carolina. -/
def hNC : Hit := ⟨35, -80, "United States", "North Carolina", "Charlotte"⟩

/-- The `Mt Pleasant` row of the spec's abbreviation scenario. -/
def rowMt : Row := ⟨"Beta", "Mt Pleasant", "Michigan", "USA", "", "", "", ""⟩

/-- CSV input carrying `LatOverride`/`LngOverride` columns. -/
def csvOverride : String :=
  "ChapterName,City,StateRegion,Country,LatOverride,LngOverride\nAlpha,Paris,,France,40.0,-75.0"

/-! ## Helper lemmas -/

/-- A string starting with char `c` differs from any string not starting
with `c`; used to separate `error: …` notes from the fixed note values. -/
theorem append_ne_of_head_ne (p m t : String) (c : Char) (l : List Char)
    (hp : p.data = c :: l) (ht : t.data.head? ≠ some c) : p ++ m ≠ t := by
  intro he
  apply ht
  rw [← he, String.data_append, hp]
  rfl

/-- Every success escaping the Open-Meteo loop carries source
`open-meteo`. -/
theorem runOM_source (omO : OMOracle) (ec es : String) :
    ∀ qs r, (runOM omO ec es qs).2 = .ok (some r) → r.source = "open-meteo" := by
  intro qs
  induction qs with
  | nil => intro r h; simp [runOM] at h
  | cons q rest ih =>
    intro r h
    obtain ⟨q1, iso⟩ := q
    simp only [runOM] at h
    rcases hresp : omO q1 iso with hits | ⟨status, body⟩
    · rw [hresp] at h
      dsimp only at h
      by_cases he : hits.isEmpty
      · rw [if_pos he] at h
        exact ih r h
      · rw [if_neg he] at h
        simp only [Except.ok.injEq, Option.map_eq_some'] at h
        obtain ⟨a, _, hr⟩ := h
        rw [← hr]
    · rw [hresp] at h
      simp at h

/-- Every success escaping the Nominatim loop carries source
`nominatim`. -/
theorem runNom_source (nomO : NomOracle) :
    ∀ qs r, (runNom nomO qs).2 = .ok (some r) → r.source = "nominatim" := by
  intro qs
  induction qs with
  | nil => intro r h; simp [runNom] at h
  | cons q rest ih =>
    intro r h
    simp only [runNom] at h
    rcases hresp : nomO q with o | ⟨status, body⟩
    · rcases o with _ | ⟨la, ln⟩
      · rw [hresp] at h
        exact ih r h
      · rw [hresp] at h
        simp only [Except.ok.injEq, Option.some.injEq] at h
        rw [← h]
    · rw [hresp] at h
      simp at h

/-- Every success of `geocodeWithFallback` carries source `open-meteo`
or `nominatim`. -/
theorem geocode_source (omO : OMOracle) (nomO : NomOracle) (row : Row)
    (r : GeoResult) (h : (geocodeWithFallback omO nomO row).2 = .ok (some r)) :
    r.source = "open-meteo" ∨ r.source = "nominatim" := by
  unfold geocodeWithFallback at h
  dsimp only at h
  by_cases hguard : normalizePlaceName row.City = "" ∨ normalizeCountryName row.Country = ""
  · rw [if_pos hguard] at h
    simp at h
  · rw [if_neg hguard] at h
    rcases hOM : (runOM omO (strToLower (strTrim row.Country)) (strToLower (strTrim row.StateRegion))
        (queryPlan row)).2 with msg | o
    · rw [hOM] at h
      dsimp only at h
      simp at h
    · rcases o with _ | g
      · rw [hOM] at h
        dsimp only at h
        right
        exact runNom_source _ _ _ h
      · rw [hOM] at h
        dsimp only at h
        rw [Except.ok.injEq, Option.some.injEq] at h
        left
        rw [← h]
        exact runOM_source _ _ _ _ _ hOM

/-! ## C1 — Match Selector rejection -/

/-- C1 counterexample: with expected country `united states` and
non-empty expected region `michigan`, and a single hit whose region
`North Carolina` matches neither exactly nor by case-insensitive
substring containment in either direction, the `part_002` selector does
NOT return none — it returns the wrong-region hit (via its country-only
fallback), so the claimed rejection fails on the code. -/
theorem pickBest002_wrong_region_counterexample :
    "michigan" ≠ "" ∧ "united states" ≠ "" ∧
    strToLower hNC.country = "united states" ∧
    strToLower hNC.admin1 ≠ "michigan" ∧
    specLooseRegionMatch "michigan" hNC.admin1 = false ∧
    pickBest002 "united states" "michigan" [hNC] = some hNC := by
  refine ⟨by decide, by decide, by decide, by decide, by decide, by decide⟩

/-- C1 amended: with non-empty expected country and region and no hit
matching both exactly (case-insensitive), the `part_001` selector
(`geocodeOpenMeteo`'s find) rejects all hits — there is no loose
substring stage — while the `part_002` selector never rejects a
non-empty hit list: it falls back to a country-only match or to the
first hit. -/
theorem selector_rejection_amended (ec es : String) (hits : List Hit)
    (hes : es ≠ "") (hec : ec ≠ "")
    (hnone : ∀ h ∈ hits, ¬(strToLower h.country = ec ∧ strToLower h.admin1 = es)) :
    findMatch001 ec es hits = none ∧
    (hits ≠ [] → (pickBest002 ec es hits).isSome = true) := by
  constructor
  · unfold findMatch001
    rw [List.find?_eq_none]
    intro h hmem
    have := hnone h hmem
    simp only [beq_iff_eq]
    simp only [if_neg (by simpa using hes)]
    by_cases hc : strToLower h.country = ec
    · by_cases ha : strToLower h.admin1 = es
      · exact absurd ⟨hc, ha⟩ this
      · simp [ha, hes]
    · intro hcon
      rw [Bool.and_eq_true] at hcon
      have h1 := hcon.1
      rw [Bool.or_eq_true] at h1
      rcases h1 with h1 | h1
      · exact hec (by simpa using h1)
      · exact hc (by simpa using h1)
  · intro hne
    cases hits with
    | nil => exact absurd rfl hne
    | cons a t =>
      unfold pickBest002
      split
      · rfl
      · split
        · rfl
        · rfl

/-- C1 amended witness at a concrete wrong-region hit list. -/
theorem selector_rejection_amended_witness :
    findMatch001 "united states" "michigan" [hNC] = none :=
  (selector_rejection_amended "united states" "michigan" [hNC]
    (by decide) (by decide) (by decide)).1

/-! ## C5 — abbreviation expansion -/

/-- C5 counterexample: the `Mt Pleasant, Michigan, USA` record generates
only candidates built from the unchanged `Mt Pleasant` — no candidate
contains `Mount Pleasant`, because no abbreviation expansion exists in
the code. -/
theorem no_mount_expansion_counterexample :
    candidates002 (normalizePlaceName rowMt.City) (strTrim rowMt.StateRegion)
        (normalizeCountryName rowMt.Country)
      = ["Mt Pleasant, Michigan, United States", "Mt Pleasant, United States", "Mt Pleasant"] ∧
    (∀ q ∈ candidates002 (normalizePlaceName rowMt.City) (strTrim rowMt.StateRegion)
        (normalizeCountryName rowMt.Country),
      occurs "Mount Pleasant".data q.data = false) := by
  exact ⟨by decide, by decide⟩

/-- C5 amended: there is no `expandAbbreviations` step — the only
place-name variant is the cleaned name itself.  For the record
`{City:"Mt Pleasant", StateRegion:"Michigan", Country:"USA"}` the
generated queries use `Mt Pleasant` unchanged (first with the `US`
country filter, then without), and `Country` is normalized from `USA`
to `United States` before querying and matching. -/
theorem mt_pleasant_candidates_amended :
    normalizeCountryName "USA" = "United States" ∧
    normalizePlaceName "Mt Pleasant" = "Mt Pleasant" ∧
    queryPlan rowMt =
      [("Mt Pleasant, Michigan, United States", "US"),
       ("Mt Pleasant, Michigan, United States", ""),
       ("Mt Pleasant, United States", "US"),
       ("Mt Pleasant, United States", ""),
       ("Mt Pleasant", "US"),
       ("Mt Pleasant", "")] := by
  exact ⟨by decide, by decide, by decide⟩

/-! ## C7 — Candidate Generator contract -/

/-- C7 counterexample: with an empty region the candidate list is NOT
duplicate-free — `City, Country` appears twice — and it also contains a
bare-place candidate beyond the two forms the claim allows. -/
theorem candidates_duplicate_counterexample :
    candidates002 "Paris" "" "France" = ["Paris, France", "Paris, France", "Paris"] ∧
    ¬ (candidates002 "Paris" "" "France").Nodup := by
  exact ⟨by decide, by decide⟩

/-- C7 amended: for a non-empty place and country the candidate
sequence is deterministic and most-specific-first with correct
comma-joining (no dangling separators), but it consists of
`place, region, country`, then `place, country`, then the bare place —
and when the region is empty the first two coincide, so the sequence is
not duplicate-free. -/
theorem candidates002_shape_amended (c s co : String) (hc : c ≠ "") (hco : co ≠ "") :
    candidates002 c s co =
      if s = "" then [c ++ ", " ++ co, c ++ ", " ++ co, c]
      else [c ++ ", " ++ s ++ ", " ++ co, c ++ ", " ++ co, c] := by
  have hne : ∀ a b : String, a ++ (", " ++ b) ≠ "" := by
    intro a b he
    have hd := congrArg String.data he
    rw [String.data_append, String.data_append] at hd
    rcases List.append_eq_nil.mp hd with ⟨_, hd1⟩
    rcases List.append_eq_nil.mp hd1 with ⟨hd2, _⟩
    simp at hd2
  by_cases hs : s = ""
  · subst hs
    simp [candidates002, joinSep, hc, hco, hne, String.append_assoc]
  · simp [candidates002, joinSep, hc, hco, hs, hne, String.append_assoc]

/-- C7 amended witness at `Mt Pleasant / Michigan / United States`. -/
theorem candidates002_shape_amended_witness :
    candidates002 "Mt Pleasant" "Michigan" "United States" =
      if "Michigan" = "" then
        ["Mt Pleasant" ++ ", " ++ "United States",
         "Mt Pleasant" ++ ", " ++ "United States", "Mt Pleasant"]
      else
        ["Mt Pleasant" ++ ", " ++ "Michigan" ++ ", " ++ "United States",
         "Mt Pleasant" ++ ", " ++ "United States", "Mt Pleasant"] :=
  candidates002_shape_amended "Mt Pleasant" "Michigan" "United States"
    (by decide) (by decide)

/-! ## Case lemmas for `processRow` -/

/-- Empty key: the row short-circuits with `missing location data`. -/
theorem processRow_key_empty (omO : OMOracle) (nomO : NomOracle) (cache : Cache)
    (i : Nat) (row : Row) (hk : makeCacheKey row = "") :
    processRow omO nomO cache i row =
      ({ baseOut i row with geocodeNote := "missing location data" }, cache, []) := by
  unfold processRow
  rw [if_pos hk]

/-- Cached key: the row is served from the cache. -/
theorem processRow_cache_hit (omO : OMOracle) (nomO : NomOracle) (cache : Cache)
    (i : Nat) (row : Row) (la ln : Int) (hk : makeCacheKey row ≠ "")
    (hc : cacheGet cache (makeCacheKey row) = some (la, ln)) :
    processRow omO nomO cache i row =
      ({ baseOut i row with lat := some la, lng := some ln, geocodeNote := "cache" },
       cache, []) := by
  unfold processRow
  rw [if_neg hk, hc]

/-- Uncached key, provider found nothing: note `not found`, cache kept. -/
theorem processRow_not_found (omO : OMOracle) (nomO : NomOracle) (cache : Cache)
    (i : Nat) (row : Row) (cs : List Call) (hk : makeCacheKey row ≠ "")
    (hc : cacheGet cache (makeCacheKey row) = none)
    (hg : geocodeWithFallback omO nomO row = (cs, .ok none)) :
    processRow omO nomO cache i row =
      ({ baseOut i row with geocodeNote := "not found" }, cache, cs) := by
  unfold processRow
  rw [if_neg hk, hc, hg]

/-- Uncached key, provider success: coordinates recorded and the pair
written into the cache under this row's key. -/
theorem processRow_success (omO : OMOracle) (nomO : NomOracle) (cache : Cache)
    (i : Nat) (row : Row) (cs : List Call) (r : GeoResult) (hk : makeCacheKey row ≠ "")
    (hc : cacheGet cache (makeCacheKey row) = none)
    (hg : geocodeWithFallback omO nomO row = (cs, .ok (some r))) :
    processRow omO nomO cache i row =
      ({ baseOut i row with lat := some r.lat, lng := some r.lng, geocodeNote := r.source },
       (makeCacheKey row, (r.lat, r.lng)) :: cache, cs) := by
  unfold processRow
  rw [if_neg hk, hc, hg]

/-- Uncached key, provider exception: note `error: …`, cache kept. -/
theorem processRow_error (omO : OMOracle) (nomO : NomOracle) (cache : Cache)
    (i : Nat) (row : Row) (cs : List Call) (msg : String) (hk : makeCacheKey row ≠ "")
    (hc : cacheGet cache (makeCacheKey row) = none)
    (hg : geocodeWithFallback omO nomO row = (cs, .error msg)) :
    processRow omO nomO cache i row =
      ({ baseOut i row with geocodeNote := "error: " ++ msg }, cache, cs) := by
  unfold processRow
  rw [if_neg hk, hc, hg]

/-! ## C4 — missing-data short-circuit -/

/-- C4 counterexample: a row with empty `City` but non-empty `Country`
has a non-empty cache key, so it does NOT short-circuit to the
missing-data note: it falls into the provider loop (which bails out
without any network call because the city is blank) and ends as
`not found`.  Moreover even the genuinely-missing row's note is the
literal `missing location data`, not `missing_data`. -/
theorem missing_data_counterexample :
    makeCacheKey ⟨"A", "", "", "USA", "", "", "", ""⟩ = "united states" ∧
    processRow omEmpty nomEmpty [] 0 ⟨"A", "", "", "USA", "", "", "", ""⟩
      = ({ baseOut 0 ⟨"A", "", "", "USA", "", "", "", ""⟩ with geocodeNote := "not found" },
         [], []) ∧
    "not found" ≠ "missing_data" ∧
    (processRow omEmpty nomEmpty [] 0 ⟨"A", "", "", "", "", "", "", ""⟩).1.geocodeNote
      = "missing location data" ∧
    "missing location data" ≠ "missing_data" := by
  exact ⟨by decide, by decide, by decide, by decide, by decide⟩

/-- C4 amended: a record whose derived CacheKey is empty (city, region
and country all blank after normalization) yields the note
`missing location data` (the code's literal for the spec's
`missing_data`), null coordinates, an unchanged cache and no network
call; a record whose normalized city is blank but whose key is non-empty
and uncached instead ends as `not found` — still with null coordinates
and no network call, since the provider loop bails out before querying. -/
theorem missing_data_amended (omO : OMOracle) (nomO : NomOracle) (cache : Cache)
    (i : Nat) (row : Row) :
    (makeCacheKey row = "" →
      processRow omO nomO cache i row =
        ({ baseOut i row with geocodeNote := "missing location data" }, cache, [])) ∧
    (normalizePlaceName row.City = "" → makeCacheKey row ≠ "" →
      cacheGet cache (makeCacheKey row) = none →
      processRow omO nomO cache i row =
        ({ baseOut i row with geocodeNote := "not found" }, cache, [])) := by
  constructor
  · intro hk
    exact processRow_key_empty omO nomO cache i row hk
  · intro hcity hk hc
    have hg : geocodeWithFallback omO nomO row = ([], .ok none) := by
      unfold geocodeWithFallback
      dsimp only
      rw [if_pos (Or.inl hcity)]
    exact processRow_not_found omO nomO cache i row [] hk hc hg

/-- C4 amended witness: both branches at concrete rows. -/
theorem missing_data_amended_witness :
    processRow omEmpty nomEmpty [] 0 ⟨"A", "", "", "", "", "", "", ""⟩
      = ({ baseOut 0 ⟨"A", "", "", "", "", "", "", ""⟩ with
            geocodeNote := "missing location data" }, [], []) ∧
    processRow omEmpty nomEmpty [] 0 ⟨"A", "", "", "USA", "", "", "", ""⟩
      = ({ baseOut 0 ⟨"A", "", "", "USA", "", "", "", ""⟩ with
            geocodeNote := "not found" }, [], []) :=
  ⟨(missing_data_amended omEmpty nomEmpty [] 0 _).1 (by decide),
   (missing_data_amended omEmpty nomEmpty [] 0 _).2 (by decide) (by decide) (by decide)⟩

/-! ## C6 — provider HTTP error handling -/

/-- C6 counterexample: with an oracle that answers HTTP 500, the plan
for the Paris row has three queries, yet exactly one network call is
made — the exception propagates and neither the next candidate nor the
Nominatim fallback is attempted; the record immediately ends with an
`error: …` note. -/
theorem provider_error_counterexample :
    (queryPlan rowP).length = 3 ∧
    geocodeWithFallback omErr nomEmpty rowP
      = ([.openMeteo "Paris, France" ""], .error "Open-Meteo error 500: Server exploded") ∧
    (processRow omErr nomEmpty [] 0 rowP).1.geocodeNote
      = "error: Open-Meteo error 500: Server exploded" ∧
    (processRow omErr nomEmpty [] 0 rowP).2.2 = [.openMeteo "Paris, France" ""] := by
  exact ⟨by decide, by decide, by decide, by decide⟩

/-- C6 amended: a non-success HTTP status on the first planned query
makes the client fail with `Open-Meteo error <status>: <body truncated
to 200 chars>`; the failure is not retried, and the exception aborts the
whole provider loop — no further candidate or provider is attempted —
so the record ends with note `error: <message>` and an unchanged
cache. -/
theorem provider_error_aborts_amended (omO : OMOracle) (nomO : NomOracle) (cache : Cache)
    (i : Nat) (row : Row) (status : Nat) (body q0 i0 : String)
    (rest : List (String × String))
    (hcity : normalizePlaceName row.City ≠ "")
    (hcountry : normalizeCountryName row.Country ≠ "")
    (hplan : queryPlan row = (q0, i0) :: rest)
    (homO : omO q0 i0 = .httpError status body)
    (hk : makeCacheKey row ≠ "")
    (hc : cacheGet cache (makeCacheKey row) = none) :
    geocodeWithFallback omO nomO row =
      ([.openMeteo q0 i0],
       .error ("Open-Meteo error " ++ toString status ++ ": " ++ strTake 200 body)) ∧
    processRow omO nomO cache i row =
      ({ baseOut i row with
          geocodeNote := "error: " ++
            ("Open-Meteo error " ++ toString status ++ ": " ++ strTake 200 body) },
       cache, [.openMeteo q0 i0]) := by
  have hg : geocodeWithFallback omO nomO row =
      ([.openMeteo q0 i0],
       .error ("Open-Meteo error " ++ toString status ++ ": " ++ strTake 200 body)) := by
    unfold geocodeWithFallback
    dsimp only
    rw [if_neg (by
      intro hor
      rcases hor with hor | hor
      · exact hcity hor
      · exact hcountry hor)]
    rw [hplan]
    simp only [runOM]
    rw [homO]
  exact ⟨hg, processRow_error omO nomO cache i row _ _ hk hc hg⟩

/-- C6 amended witness at the concrete HTTP-500 oracle. -/
theorem provider_error_aborts_amended_witness :
    geocodeWithFallback omErr nomEmpty rowP =
      ([.openMeteo "Paris, France" ""],
       .error ("Open-Meteo error " ++ toString 500 ++ ": " ++ strTake 200 "Server exploded")) :=
  (provider_error_aborts_amended omErr nomEmpty [] 0 rowP 500 "Server exploded"
    "Paris, France" "" [("Paris, France", ""), ("Paris", "")]
    (by decide) (by decide) (by decide) (by decide) (by decide) (by decide)).1

/-! ## Shape analysis of one `main`-loop iteration -/

/-- Exhaustive case analysis of `processRow`: every iteration of the
`main` loop lands in exactly one of the five branches of the source. -/
theorem processRow_shape (omO : OMOracle) (nomO : NomOracle) (cache : Cache)
    (i : Nat) (row : Row) :
    (makeCacheKey row = "" ∧
      processRow omO nomO cache i row =
        ({ baseOut i row with geocodeNote := "missing location data" }, cache, [])) ∨
    (∃ la ln, makeCacheKey row ≠ "" ∧ cacheGet cache (makeCacheKey row) = some (la, ln) ∧
      processRow omO nomO cache i row =
        ({ baseOut i row with lat := some la, lng := some ln, geocodeNote := "cache" },
         cache, [])) ∨
    (∃ cs, makeCacheKey row ≠ "" ∧ cacheGet cache (makeCacheKey row) = none ∧
      geocodeWithFallback omO nomO row = (cs, .ok none) ∧
      processRow omO nomO cache i row =
        ({ baseOut i row with geocodeNote := "not found" }, cache, cs)) ∨
    (∃ cs r, makeCacheKey row ≠ "" ∧ cacheGet cache (makeCacheKey row) = none ∧
      geocodeWithFallback omO nomO row = (cs, .ok (some r)) ∧
      processRow omO nomO cache i row =
        ({ baseOut i row with lat := some r.lat, lng := some r.lng, geocodeNote := r.source },
         (makeCacheKey row, (r.lat, r.lng)) :: cache, cs)) ∨
    (∃ cs msg, makeCacheKey row ≠ "" ∧ cacheGet cache (makeCacheKey row) = none ∧
      geocodeWithFallback omO nomO row = (cs, .error msg) ∧
      processRow omO nomO cache i row =
        ({ baseOut i row with geocodeNote := "error: " ++ msg }, cache, cs)) := by
  by_cases hk : makeCacheKey row = ""
  · exact Or.inl ⟨hk, processRow_key_empty omO nomO cache i row hk⟩
  · rcases hcg : cacheGet cache (makeCacheKey row) with _ | ⟨la, ln⟩
    · have hpair : geocodeWithFallback omO nomO row =
          ((geocodeWithFallback omO nomO row).1, (geocodeWithFallback omO nomO row).2) :=
        Prod.mk.eta.symm
      rcases hg2 : (geocodeWithFallback omO nomO row).2 with msg | o
      · refine Or.inr (Or.inr (Or.inr (Or.inr
          ⟨(geocodeWithFallback omO nomO row).1, msg, hk, rfl, ?_, ?_⟩)))
        · rw [hpair, hg2]
        · exact processRow_error omO nomO cache i row _ msg hk hcg (by rw [hpair, hg2])
      · rcases o with _ | r
        · refine Or.inr (Or.inr (Or.inl
            ⟨(geocodeWithFallback omO nomO row).1, hk, rfl, ?_, ?_⟩))
          · rw [hpair, hg2]
          · exact processRow_not_found omO nomO cache i row _ hk hcg (by rw [hpair, hg2])
        · refine Or.inr (Or.inr (Or.inr (Or.inl
            ⟨(geocodeWithFallback omO nomO row).1, r, hk, rfl, ?_, ?_⟩)))
          · rw [hpair, hg2]
          · exact processRow_success omO nomO cache i row _ r hk hcg (by rw [hpair, hg2])
    · exact Or.inr (Or.inl ⟨la, ln, hk, rfl, processRow_cache_hit omO nomO cache i row la ln hk hcg⟩)

/-- The descriptive fields of every output record come from `baseOut`,
whatever branch was taken. -/
theorem processRow_base_fields (omO : OMOracle) (nomO : NomOracle) (cache : Cache)
    (i : Nat) (row : Row) :
    (processRow omO nomO cache i row).1.id = i + 1 ∧
    (processRow omO nomO cache i row).1.city = row.City ∧
    (processRow omO nomO cache i row).1.chapterName = row.ChapterName := by
  rcases processRow_shape omO nomO cache i row with
      ⟨_, hp⟩ | ⟨la, ln, _, _, hp⟩ | ⟨cs, _, _, _, hp⟩ | ⟨cs, r, _, _, _, hp⟩ |
      ⟨cs, msg, _, _, _, hp⟩ <;>
    rw [hp] <;> exact ⟨rfl, rfl, rfl⟩

/-- The five notes a record can end with: the fixed literals, a provider
source, or an `error: …` message. -/
theorem processRow_note (omO : OMOracle) (nomO : NomOracle) (cache : Cache)
    (i : Nat) (row : Row) :
    (processRow omO nomO cache i row).1.geocodeNote = "missing location data" ∨
    (processRow omO nomO cache i row).1.geocodeNote = "cache" ∨
    (processRow omO nomO cache i row).1.geocodeNote = "not found" ∨
    (processRow omO nomO cache i row).1.geocodeNote = "open-meteo" ∨
    (processRow omO nomO cache i row).1.geocodeNote = "nominatim" ∨
    (∃ msg, (processRow omO nomO cache i row).1.geocodeNote = "error: " ++ msg) := by
  rcases processRow_shape omO nomO cache i row with
      ⟨_, hp⟩ | ⟨la, ln, _, _, hp⟩ | ⟨cs, _, _, _, hp⟩ | ⟨cs, r, _, _, hg, hp⟩ |
      ⟨cs, msg, _, _, _, hp⟩
  · exact Or.inl (by rw [hp])
  · exact Or.inr (Or.inl (by rw [hp]))
  · exact Or.inr (Or.inr (Or.inl (by rw [hp])))
  · rcases geocode_source omO nomO row r (by rw [hg]) with hs | hs
    · exact Or.inr (Or.inr (Or.inr (Or.inl (by rw [hp]; exact hs))))
    · exact Or.inr (Or.inr (Or.inr (Or.inr (Or.inl (by rw [hp]; exact hs)))))
  · exact Or.inr (Or.inr (Or.inr (Or.inr (Or.inr ⟨msg, by rw [hp]⟩))))

/-! ## C2 — override precedence -/

/-- C2 counterexample: the row of the override scenario
(`LatOverride=40.0`, `LngOverride=-75.0`) parses with the override
columns silently ignored, and with a provider returning nothing the
record ends as `not found` with null coordinates and nothing written to
the cache — not the claimed `(40.0, -75.0)` with note `override`. -/
theorem override_ignored_counterexample :
    parseCsv csvOverride = .ok [rowP] ∧
    (runPipeline omEmpty nomEmpty [rowP] 0 []).1
      = [{ baseOut 0 rowP with geocodeNote := "not found" }] ∧
    ({ baseOut 0 rowP with geocodeNote := "not found" }).lat = none ∧
    ({ baseOut 0 rowP with geocodeNote := "not found" }).geocodeNote ≠ "override" ∧
    (runPipeline omEmpty nomEmpty [rowP] 0 []).2.1 = [] := by
  exact ⟨by decide, by decide, by decide, by decide, by decide⟩

/-- C2 amended: the pipeline has no override mechanism at all —
`parseCsv` never reads `LatOverride`/`LngOverride`, and no record of any
run can carry the note `override`; such a record is cached or geocoded
like any other. -/
theorem no_override_note (omO : OMOracle) (nomO : NomOracle) :
    ∀ rows i cache, ∀ o ∈ (runPipeline omO nomO rows i cache).1,
      o.geocodeNote ≠ "override" := by
  intro rows
  induction rows with
  | nil => intro i cache o hmem; simp [runPipeline] at hmem
  | cons row rest ih =>
    intro i cache
    have hexp : (runPipeline omO nomO (row :: rest) i cache).1 =
        (processRow omO nomO cache i row).1 ::
          (runPipeline omO nomO rest (i + 1) (processRow omO nomO cache i row).2.1).1 := rfl
    rw [hexp, List.forall_mem_cons]
    refine ⟨?_, ih (i + 1) (processRow omO nomO cache i row).2.1⟩
    rcases processRow_note omO nomO cache i row with hn | hn | hn | hn | hn | ⟨msg, hn⟩ <;>
      rw [hn]
    · decide
    · decide
    · decide
    · decide
    · decide
    · exact append_ne_of_head_ne "error: " msg "override" 'e'
        ['r', 'r', 'o', 'r', ':', ' '] rfl (by decide)

/-- C2 amended witness: the override-scenario record's note is not
`override`. -/
theorem no_override_note_witness :
    ({ baseOut 0 rowP with geocodeNote := "not found" } : OutRec).geocodeNote ≠ "override" :=
  no_override_note omEmpty nomEmpty [rowP] 0 []
    { baseOut 0 rowP with geocodeNote := "not found" } (by decide)

/-! ## C8 — batch totality and order preservation -/

/-- Helper for C8, generalized over the starting index: the output list
is as long as the input, ids are consecutive from `i+1`, and the
descriptive fields follow the input rows in order. -/
theorem runPipeline_total (omO : OMOracle) (nomO : NomOracle) :
    ∀ rows i cache,
      (runPipeline omO nomO rows i cache).1.length = rows.length ∧
      (runPipeline omO nomO rows i cache).1.map (fun o => o.id)
        = List.range' (i + 1) rows.length ∧
      (runPipeline omO nomO rows i cache).1.map (fun o => o.city)
        = rows.map (fun r => r.City) ∧
      (runPipeline omO nomO rows i cache).1.map (fun o => o.chapterName)
        = rows.map (fun r => r.ChapterName) := by
  intro rows
  induction rows with
  | nil => intro i cache; exact ⟨rfl, rfl, rfl, rfl⟩
  | cons row rest ih =>
    intro i cache
    have hexp : (runPipeline omO nomO (row :: rest) i cache).1 =
        (processRow omO nomO cache i row).1 ::
          (runPipeline omO nomO rest (i + 1) (processRow omO nomO cache i row).2.1).1 := rfl
    obtain ⟨hlen, hid, hcity, hname⟩ := ih (i + 1) (processRow omO nomO cache i row).2.1
    obtain ⟨hbid, hbcity, hbname⟩ := processRow_base_fields omO nomO cache i row
    refine ⟨?_, ?_, ?_, ?_⟩
    · rw [hexp]; simp [hlen]
    · rw [hexp, List.map_cons, hbid, hid, List.length_cons, List.range'_succ]
    · rw [hexp, List.map_cons, hbcity, hcity, List.map_cons]
    · rw [hexp, List.map_cons, hbname, hname, List.map_cons]

/-- C8: one output record per input record, in input order, with `id`
equal to the 1-based row position — whatever the providers and the cache
do, including total failure. -/
theorem batch_totality (omO : OMOracle) (nomO : NomOracle) (rows : List Row) (cache : Cache) :
    (runPipeline omO nomO rows 0 cache).1.length = rows.length ∧
    (runPipeline omO nomO rows 0 cache).1.map (fun o => o.id)
      = List.range' 1 rows.length ∧
    (runPipeline omO nomO rows 0 cache).1.map (fun o => o.city)
      = rows.map (fun r => r.City) ∧
    (runPipeline omO nomO rows 0 cache).1.map (fun o => o.chapterName)
      = rows.map (fun r => r.ChapterName) :=
  runPipeline_total omO nomO rows 0 cache

/-! ## C9 — coordinate pairing invariant -/

/-- C9: in every output record, `lat` is null exactly when `lng` is. -/
theorem lat_lng_paired (omO : OMOracle) (nomO : NomOracle) :
    ∀ rows i cache, ∀ o ∈ (runPipeline omO nomO rows i cache).1,
      (o.lat = none ↔ o.lng = none) := by
  intro rows
  induction rows with
  | nil => intro i cache o hmem; simp [runPipeline] at hmem
  | cons row rest ih =>
    intro i cache
    have hexp : (runPipeline omO nomO (row :: rest) i cache).1 =
        (processRow omO nomO cache i row).1 ::
          (runPipeline omO nomO rest (i + 1) (processRow omO nomO cache i row).2.1).1 := rfl
    rw [hexp, List.forall_mem_cons]
    refine ⟨?_, ih (i + 1) (processRow omO nomO cache i row).2.1⟩
    rcases processRow_shape omO nomO cache i row with
        ⟨_, hp⟩ | ⟨la, ln, _, _, hp⟩ | ⟨cs, _, _, _, hp⟩ | ⟨cs, r, _, _, _, hp⟩ |
        ⟨cs, msg, _, _, _, hp⟩ <;> rw [hp] <;> simp [baseOut]

/-- The output record produced for `rowP` by the `omHit` oracle. -/
def outParis : OutRec :=
  { baseOut 0 rowP with lat := some 48, lng := some 2, geocodeNote := "open-meteo" }

/-- C9 witness at a concrete resolved record. -/
theorem lat_lng_paired_witness : (outParis.lat = none ↔ outParis.lng = none) :=
  lat_lng_paired omHit nomEmpty [rowP] 0 [] outParis (by decide)

/-! ## C10 — cache-write discipline -/

/-- C10: the main loop mutates the cache only when the record resolves
successfully via a provider (note `open-meteo` or `nominatim`), and then
it prepends exactly one entry under that record's own, previously absent
key, holding the record's coordinates; every other outcome (cache,
missing data, not found, error) leaves the cache unchanged. -/
theorem cache_write_discipline (omO : OMOracle) (nomO : NomOracle) (cache : Cache)
    (i : Nat) (row : Row) :
    ((processRow omO nomO cache i row).1.geocodeNote = "open-meteo" ∨
     (processRow omO nomO cache i row).1.geocodeNote = "nominatim" →
      cacheGet cache (makeCacheKey row) = none ∧
      ∃ la ln, (processRow omO nomO cache i row).1.lat = some la ∧
        (processRow omO nomO cache i row).1.lng = some ln ∧
        (processRow omO nomO cache i row).2.1 = (makeCacheKey row, (la, ln)) :: cache) ∧
    (¬((processRow omO nomO cache i row).1.geocodeNote = "open-meteo" ∨
       (processRow omO nomO cache i row).1.geocodeNote = "nominatim") →
      (processRow omO nomO cache i row).2.1 = cache) := by
  rcases processRow_shape omO nomO cache i row with
      ⟨_, hp⟩ | ⟨la, ln, _, _, hp⟩ | ⟨cs, _, _, _, hp⟩ | ⟨cs, r, _, hcg, hg, hp⟩ |
      ⟨cs, msg, _, _, _, hp⟩
  · constructor
    · intro hsrc
      rw [hp] at hsrc
      rcases hsrc with hsrc | hsrc <;> simp at hsrc
    · intro _; rw [hp]
  · constructor
    · intro hsrc
      rw [hp] at hsrc
      rcases hsrc with hsrc | hsrc <;> simp at hsrc
    · intro _; rw [hp]
  · constructor
    · intro hsrc
      rw [hp] at hsrc
      rcases hsrc with hsrc | hsrc <;> simp at hsrc
    · intro _; rw [hp]
  · constructor
    · intro _
      exact ⟨hcg, r.lat, r.lng, by rw [hp], by rw [hp], by rw [hp]⟩
    · intro hn
      exact absurd (by rw [hp]; exact geocode_source omO nomO row r (by rw [hg])) hn
  · constructor
    · intro hsrc
      rw [hp] at hsrc
      rcases hsrc with hsrc | hsrc
      · exact absurd hsrc (append_ne_of_head_ne "error: " msg "open-meteo" 'e'
          ['r', 'r', 'o', 'r', ':', ' '] rfl (by decide))
      · exact absurd hsrc (append_ne_of_head_ne "error: " msg "nominatim" 'e'
          ['r', 'r', 'o', 'r', ':', ' '] rfl (by decide))
    · intro _; rw [hp]

/-- C10 witness: the Paris record resolved via `omHit` writes exactly
its own entry into the empty cache. -/
theorem cache_write_discipline_witness :
    cacheGet [] (makeCacheKey rowP) = none ∧
    ∃ la ln, (processRow omHit nomEmpty [] 0 rowP).1.lat = some la ∧
      (processRow omHit nomEmpty [] 0 rowP).1.lng = some ln ∧
      (processRow omHit nomEmpty [] 0 rowP).2.1 = (makeCacheKey rowP, (la, ln)) :: [] :=
  (cache_write_discipline omHit nomEmpty [] 0 rowP).1 (Or.inl (by decide))

/-! ## Cache monotonicity -/

/-- Unfolding one iteration of the pipeline given the iteration's
result. -/
theorem runPipeline_cons_eq (omO : OMOracle) (nomO : NomOracle) (row : Row)
    (rest : List Row) (i : Nat) (cache : Cache) (o : OutRec) (c2 : Cache) (cs : List Call)
    (hp : processRow omO nomO cache i row = (o, c2, cs)) :
    runPipeline omO nomO (row :: rest) i cache =
      (o :: (runPipeline omO nomO rest (i + 1) c2).1,
       (runPipeline omO nomO rest (i + 1) c2).2.1,
       cs ++ (runPipeline omO nomO rest (i + 1) c2).2.2) := by
  have e : runPipeline omO nomO (row :: rest) i cache =
      ((processRow omO nomO cache i row).1 ::
        (runPipeline omO nomO rest (i + 1) (processRow omO nomO cache i row).2.1).1,
       (runPipeline omO nomO rest (i + 1) (processRow omO nomO cache i row).2.1).2.1,
       (processRow omO nomO cache i row).2.2 ++
        (runPipeline omO nomO rest (i + 1) (processRow omO nomO cache i row).2.1).2.2) := rfl
  rw [e, hp]

/-- Componentwise reading of `runPipeline_cons_eq`: the output list. -/
theorem runPipeline_cons_out (omO : OMOracle) (nomO : NomOracle) (row : Row)
    (rest : List Row) (i : Nat) (cache : Cache) (o : OutRec) (c2 : Cache) (cs : List Call)
    (hp : processRow omO nomO cache i row = (o, c2, cs)) :
    (runPipeline omO nomO (row :: rest) i cache).1 =
      o :: (runPipeline omO nomO rest (i + 1) c2).1 := by
  rw [runPipeline_cons_eq omO nomO row rest i cache o c2 cs hp]

/-- Componentwise reading of `runPipeline_cons_eq`: the final cache. -/
theorem runPipeline_cons_cache (omO : OMOracle) (nomO : NomOracle) (row : Row)
    (rest : List Row) (i : Nat) (cache : Cache) (o : OutRec) (c2 : Cache) (cs : List Call)
    (hp : processRow omO nomO cache i row = (o, c2, cs)) :
    (runPipeline omO nomO (row :: rest) i cache).2.1 =
      (runPipeline omO nomO rest (i + 1) c2).2.1 := by
  rw [runPipeline_cons_eq omO nomO row rest i cache o c2 cs hp]


/-- One loop iteration never removes or changes an existing cache
entry. -/
theorem cacheGet_mono_processRow (omO : OMOracle) (nomO : NomOracle) (cache : Cache)
    (i : Nat) (row : Row) (k : String) (v : Int × Int)
    (h : cacheGet cache k = some v) :
    cacheGet (processRow omO nomO cache i row).2.1 k = some v := by
  rcases processRow_shape omO nomO cache i row with
      ⟨_, hp⟩ | ⟨la, ln, _, _, hp⟩ | ⟨cs, _, _, _, hp⟩ | ⟨cs, r, _, hcg, _, hp⟩ |
      ⟨cs, msg, _, _, _, hp⟩ <;> rw [hp]
  · exact h
  · exact h
  · exact h
  · show cacheGet ((makeCacheKey row, (r.lat, r.lng)) :: cache) k = some v
    simp only [cacheGet]
    rw [if_neg ?_]
    · exact h
    · intro hkk
      rw [hkk, h] at hcg
      exact Option.noConfusion hcg
  · exact h

/-- The whole loop never removes or changes an existing cache entry. -/
theorem cacheGet_mono_runPipeline (omO : OMOracle) (nomO : NomOracle) :
    ∀ rows i cache k v, cacheGet cache k = some v →
      cacheGet (runPipeline omO nomO rows i cache).2.1 k = some v := by
  intro rows
  induction rows with
  | nil => intro i cache k v h; exact h
  | cons row rest ih =>
    intro i cache k v h
    rcases hp : processRow omO nomO cache i row with ⟨o, c2, cs⟩
    rw [runPipeline_cons_cache omO nomO row rest i cache o c2 cs hp]
    have h2 := cacheGet_mono_processRow omO nomO cache i row k v h
    rw [hp] at h2
    exact ih (i + 1) c2 k v h2

/-! ## C3 — idempotence of a second run -/

/-- A record outcome that neither failed to resolve nor errored. -/
abbrev noFail (o : OutRec) : Prop :=
  o.geocodeNote = "cache" ∨ o.geocodeNote = "missing location data" ∨
  o.geocodeNote = "open-meteo" ∨ o.geocodeNote = "nominatim"

/-- The note rewriting a second run applies to a first-run record:
provider notes become `cache`; `cache` and `missing location data` stay. -/
def cacheNote (o : OutRec) : OutRec :=
  if o.geocodeNote = "cache" ∨ o.geocodeNote = "missing location data" then o
  else { o with geocodeNote := "cache" }

/-- A provider source note is neither `cache` nor
`missing location data`. -/
theorem provider_source_ne (s : String)
    (hs : s = "open-meteo" ∨ s = "nominatim") :
    ¬(s = "cache" ∨ s = "missing location data") := by
  rcases hs with hs | hs <;> rw [hs] <;> decide

/-- `c` is contained in `d`: every readable entry of `c` reads the same
in `d`. -/
def cacheSub (c d : Cache) : Prop :=
  ∀ k v, cacheGet c k = some v → cacheGet d k = some v

/-- Helper for C3, generalized over the starting index and over any
cache `d` containing the first run's final cache: when every record of
the first run ended without failure, running the same rows from `d`
issues no network call, leaves `d` untouched, and reproduces the first
run's records with provider notes replaced by `cache`. -/
theorem second_run_gen (omO : OMOracle) (nomO : NomOracle) :
    ∀ rows i cache d,
      (∀ o ∈ (runPipeline omO nomO rows i cache).1, noFail o) →
      cacheSub (runPipeline omO nomO rows i cache).2.1 d →
      runPipeline omO nomO rows i d =
        ((runPipeline omO nomO rows i cache).1.map cacheNote, d, []) := by
  intro rows
  induction rows with
  | nil => intro i cache d _ _; rfl
  | cons row rest ih =>
    intro i cache d hnf hsub
    rcases processRow_shape omO nomO cache i row with
        ⟨hk, hp⟩ | ⟨la, ln, hk, hcg, hp⟩ | ⟨cs, hk, hcg, hg, hp⟩ |
        ⟨cs, r, hk, hcg, hg, hp⟩ | ⟨cs, msg, hk, hcg, hg, hp⟩
    · -- missing data: identical in both runs
      rw [runPipeline_cons_out omO nomO row rest i cache _ _ _ hp,
        List.forall_mem_cons] at hnf
      rw [runPipeline_cons_cache omO nomO row rest i cache _ _ _ hp] at hsub
      have hIH := ih (i + 1) cache d hnf.2 hsub
      rw [runPipeline_cons_out omO nomO row rest i cache _ _ _ hp]
      rw [runPipeline_cons_eq omO nomO row rest i d _ _ _
        (processRow_key_empty omO nomO d i row hk), hIH]
      simp [cacheNote]
    · -- cache hit: identical in both runs
      rw [runPipeline_cons_out omO nomO row rest i cache _ _ _ hp,
        List.forall_mem_cons] at hnf
      rw [runPipeline_cons_cache omO nomO row rest i cache _ _ _ hp] at hsub
      have hIH := ih (i + 1) cache d hnf.2 hsub
      have hd : cacheGet d (makeCacheKey row) = some (la, ln) :=
        hsub _ _ (cacheGet_mono_runPipeline omO nomO rest (i + 1) cache _ _ hcg)
      rw [runPipeline_cons_out omO nomO row rest i cache _ _ _ hp]
      rw [runPipeline_cons_eq omO nomO row rest i d _ _ _
        (processRow_cache_hit omO nomO d i row la ln hk hd), hIH]
      simp [cacheNote]
    · -- not found in run 1: excluded by the no-failure hypothesis
      exfalso
      rw [runPipeline_cons_out omO nomO row rest i cache _ _ _ hp,
        List.forall_mem_cons] at hnf
      rcases hnf.1 with h | h | h | h <;> simp [baseOut] at h
    · -- resolved via provider in run 1: served from cache in run 2
      have hsrc := geocode_source omO nomO row r (by rw [hg])
      rw [runPipeline_cons_out omO nomO row rest i cache _ _ _ hp,
        List.forall_mem_cons] at hnf
      rw [runPipeline_cons_cache omO nomO row rest i cache _ _ _ hp] at hsub
      have hIH := ih (i + 1) ((makeCacheKey row, (r.lat, r.lng)) :: cache) d hnf.2 hsub
      have hd : cacheGet d (makeCacheKey row) = some (r.lat, r.lng) :=
        hsub _ _ (cacheGet_mono_runPipeline omO nomO rest (i + 1)
          ((makeCacheKey row, (r.lat, r.lng)) :: cache) _ _ (by simp [cacheGet]))
      rw [runPipeline_cons_out omO nomO row rest i cache _ _ _ hp]
      rw [runPipeline_cons_eq omO nomO row rest i d _ _ _
        (processRow_cache_hit omO nomO d i row r.lat r.lng hk hd), hIH]
      have hcn : cacheNote { baseOut i row with lat := some r.lat, lng := some r.lng, geocodeNote := r.source } = { baseOut i row with lat := some r.lat, lng := some r.lng, geocodeNote := "cache" } := by
        unfold cacheNote
        rw [if_neg (provider_source_ne r.source hsrc)]
      simp [hcn]
    · -- error in run 1: excluded by the no-failure hypothesis
      exfalso
      rw [runPipeline_cons_out omO nomO row rest i cache _ _ _ hp,
        List.forall_mem_cons] at hnf
      rcases hnf.1 with h | h | h | h
      · exact absurd h (append_ne_of_head_ne "error: " msg "cache" 'e'
          ['r', 'r', 'o', 'r', ':', ' '] rfl (by decide))
      · exact absurd h (append_ne_of_head_ne "error: " msg "missing location data" 'e'
          ['r', 'r', 'o', 'r', ':', ' '] rfl (by decide))
      · exact absurd h (append_ne_of_head_ne "error: " msg "open-meteo" 'e'
          ['r', 'r', 'o', 'r', ':', ' '] rfl (by decide))
      · exact absurd h (append_ne_of_head_ne "error: " msg "nominatim" 'e'
          ['r', 'r', 'o', 'r', ':', ' '] rfl (by decide))

/-- C3 counterexample: with a provider that resolves the Paris row, the
second run's output differs from the first run's (the note changes from
`open-meteo` to `cache`); and with a provider that finds nothing, the
second run issues network calls again (the `not found` outcome is not
cached). -/
theorem second_run_counterexample :
    ((runPipeline omHit nomEmpty [rowP] 0
        (runPipeline omHit nomEmpty [rowP] 0 []).2.1).1
      ≠ (runPipeline omHit nomEmpty [rowP] 0 []).1) ∧
    ((runPipeline omEmpty nomEmpty [rowP] 0
        (runPipeline omEmpty nomEmpty [rowP] 0 []).2.1).2.2 ≠ []) := by
  exact ⟨by decide, by decide⟩

/-- C3 amended: if every record of run 1 ended without failure (note
`cache`, `missing location data`, `open-meteo` or `nominatim`), then
run 2 — same rows, starting from run 1's persisted cache — performs zero
network calls, leaves the cache identical, and produces run 1's output
with every provider note replaced by `cache`; the output is NOT
identical in general (provider notes change) and failed records are
re-queried, as the counterexample shows. -/
theorem second_run_amended (omO : OMOracle) (nomO : NomOracle) (rows : List Row)
    (cache : Cache)
    (hnf : ∀ o ∈ (runPipeline omO nomO rows 0 cache).1, noFail o) :
    runPipeline omO nomO rows 0 (runPipeline omO nomO rows 0 cache).2.1 =
      ((runPipeline omO nomO rows 0 cache).1.map cacheNote,
       (runPipeline omO nomO rows 0 cache).2.1, []) :=
  second_run_gen omO nomO rows 0 cache (runPipeline omO nomO rows 0 cache).2.1 hnf
    (fun _ _ h => h)

/-- C3 amended witness: the Paris record resolved in run 1, and run 2
serves it from cache with zero calls. -/
theorem second_run_amended_witness :
    runPipeline omHit nomEmpty [rowP] 0 (runPipeline omHit nomEmpty [rowP] 0 []).2.1 =
      ((runPipeline omHit nomEmpty [rowP] 0 []).1.map cacheNote,
       (runPipeline omHit nomEmpty [rowP] 0 []).2.1, []) :=
  second_run_amended omHit nomEmpty [rowP] [] (by decide)

end ChapterMap
